import Mathlib

/-!
# Verification of the MCP learning server core (`mcp_server.py`)

Shallow embedding of the capability dispatch and in-memory store of
`mcp_server.py`:

* `Task` / `TASKS_DB` embed the task records and the seed database.
* `handle_call_tool` embeds the tool dispatcher (`add_task`, `list_tasks`,
  `complete_task`, `get_weather`, `calculate`).
* `handle_list_resources` / `handle_read_resource` embed the resource
  handlers; the notes directory and the filesystem are passed explicitly
  (a directory listing, and an association list of existing regular files).
* Python's builtin `eval`, reachable only through the character allow-list
  of the `calculate` tool, is modelled by `pyEval`: a tokenizer, a
  recursive-descent parser for the arithmetic fragment expressible with
  the allowed characters, and an evaluator over Python ints and floats.
* Exceptions raised by a handler (`KeyError` on a missing argument,
  `ValueError` on an unknown capability, `FileNotFoundError` on a missing
  note file) become the `Except.error` side of the handler's result;
  mutation of the global `TASKS_DB` becomes explicit state passing.
* `datetime.now().strftime("%Y-%m-%d")` is nondeterministic, so the
  current date is a parameter `today` of `handle_call_tool`; likewise the
  data of the `system://info` resource are parameters.
-/

namespace MCP

/-- A task record of `TASKS_DB`.  The seed records carry no `description`
key, tasks created by `add_task` do, hence the `Option`. -/
structure Task where
  id : Int
  title : String
  description : Option String
  completed : Bool
  created : String
deriving DecidableEq

/-- The seed database (`TASKS_DB` in `mcp_server.py`). -/
def TASKS_DB : List Task :=
  [⟨1, "Learn MCP basics", none, false, "2025-08-15"⟩,
   ⟨2, "Build a simple tool", none, true, "2025-08-14"⟩,
   ⟨3, "Understand resources", none, false, "2025-08-15"⟩]

/-- `TextContent(type="text", text=...)`. -/
structure TextContent where
  type : String
  text : String
deriving DecidableEq

/-- `CallToolResult(content=[...])`. -/
structure CallToolResult where
  content : List TextContent
deriving DecidableEq

/-- `ReadResourceResult(contents=[...])`. -/
structure ReadResourceResult where
  contents : List TextContent
deriving DecidableEq

/-- A resource descriptor (`Resource(uri=..., name=..., ...)`). -/
structure Resource where
  uri : String
  name : String
  description : String
  mimeType : String
deriving DecidableEq

/-- The Python exceptions a handler can raise, which the MCP transport
layer receives as a hard failure. -/
inductive PyExc where
  | valueError (msg : String)
  | keyError (key : String)
  | fileNotFound (msg : String)
deriving DecidableEq

/-- The argument mapping of a tool call: each field present iff the
corresponding dictionary key is present.  `arguments["k"]` on a missing
key raises `KeyError`. -/
structure Arguments where
  title : Option String
  description : Option String
  task_id : Option Int
  city : Option String
  expression : Option String

/-! ## Model of Python `eval` on the calculator's allowed characters

`calculate` only reaches `eval` when every character of the input is in
`"0123456789+-*/.() "`.  On such strings Python `eval` is an arithmetic
evaluator over ints and floats (with `**`, `//`, unary signs, parentheses,
and the empty tuple `()`); any failure raises an exception whose message
is reported by the handler.  `pyEval` models this: the float arithmetic
itself is opaque to the proofs below, only the int fragment is ever
evaluated concretely. -/

/-- A value Python `eval` can produce from the allowed characters. -/
inductive PyVal where
  | int (i : Int)
  | float (f : Float)
  | unit

/-- `str(result)`, as used by the f-string `f"{expression} = {result}"`. -/
def pyStr : PyVal → String
  | .int i => toString i
  | .float f => toString f
  | .unit => "()"

/-- Tokens of the arithmetic fragment. -/
inductive Tok where
  | num (v : PyVal)
  | plus | minus | star | slash | dstar | dslash | lparen | rparen

/-- Digits of a numeric literal as a natural number. -/
def natOfDigits (cs : List Char) : Nat :=
  cs.foldl (fun n c => n * 10 + (c.toNat - 48)) 0

/-- A float literal `ipart.fpart`. -/
def mkFloat (ipart fpart : List Char) : Float :=
  Float.ofScientific (natOfDigits (ipart ++ fpart)) true fpart.length

/-- A numeric literal from its span of digit/dot characters. -/
def numVal (cs : List Char) : Except String PyVal :=
  let dots := cs.count '.'
  if dots = 0 then .ok (.int (Int.ofNat (natOfDigits cs)))
  else if dots = 1 ∧ cs ≠ ['.'] then
    .ok (.float (mkFloat (cs.takeWhile (· ≠ '.')) ((cs.dropWhile (· ≠ '.')).drop 1)))
  else .error "invalid syntax"

/-- Tokenizer (fuel-indexed; the fuel is always sufficient at the call
site in `pyEval`). -/
def tokenize : Nat → List Char → Except String (List Tok)
  | _, [] => .ok []
  | 0, _ => .error "invalid syntax"
  | fuel+1, c :: rest =>
    if c = ' ' then tokenize fuel rest
    else if c = '+' then (tokenize fuel rest).map (Tok.plus :: ·)
    else if c = '-' then (tokenize fuel rest).map (Tok.minus :: ·)
    else if c = '(' then (tokenize fuel rest).map (Tok.lparen :: ·)
    else if c = ')' then (tokenize fuel rest).map (Tok.rparen :: ·)
    else if c = '*' then
      match rest with
      | '*' :: rest2 => (tokenize fuel rest2).map (Tok.dstar :: ·)
      | _ => (tokenize fuel rest).map (Tok.star :: ·)
    else if c = '/' then
      match rest with
      | '/' :: rest2 => (tokenize fuel rest2).map (Tok.dslash :: ·)
      | _ => (tokenize fuel rest).map (Tok.slash :: ·)
    else if c.isDigit ∨ c = '.' then
      match numVal ((c :: rest).takeWhile (fun x => x.isDigit || x = '.')) with
      | .ok v => (tokenize fuel ((c :: rest).dropWhile (fun x => x.isDigit || x = '.'))).map (Tok.num v :: ·)
      | .error e => .error e
    else .error "invalid syntax"

/-- Abstract syntax of the arithmetic fragment. -/
inductive PyExpr where
  | lit (v : PyVal)
  | neg (e : PyExpr)
  | pos (e : PyExpr)
  | add (a b : PyExpr)
  | sub (a b : PyExpr)
  | mul (a b : PyExpr)
  | div (a b : PyExpr)
  | fdiv (a b : PyExpr)
  | pow (a b : PyExpr)

mutual

/-- `expr := term (('+'|'-') term)*` -/
def parseExpr : Nat → List Tok → Except String (PyExpr × List Tok)
  | 0, _ => .error "invalid syntax"
  | fuel+1, ts => do
    let (a, r) ← parseTerm fuel ts
    parseExprTail fuel a r

def parseExprTail : Nat → PyExpr → List Tok → Except String (PyExpr × List Tok)
  | 0, _, _ => .error "invalid syntax"
  | fuel+1, a, Tok.plus :: r => do
    let (b, r2) ← parseTerm fuel r
    parseExprTail fuel (PyExpr.add a b) r2
  | fuel+1, a, Tok.minus :: r => do
    let (b, r2) ← parseTerm fuel r
    parseExprTail fuel (PyExpr.sub a b) r2
  | _+1, a, r => .ok (a, r)

/-- `term := unary (('*'|'/'|'//') unary)*` -/
def parseTerm : Nat → List Tok → Except String (PyExpr × List Tok)
  | 0, _ => .error "invalid syntax"
  | fuel+1, ts => do
    let (a, r) ← parseUnary fuel ts
    parseTermTail fuel a r

def parseTermTail : Nat → PyExpr → List Tok → Except String (PyExpr × List Tok)
  | 0, _, _ => .error "invalid syntax"
  | fuel+1, a, Tok.star :: r => do
    let (b, r2) ← parseUnary fuel r
    parseTermTail fuel (PyExpr.mul a b) r2
  | fuel+1, a, Tok.slash :: r => do
    let (b, r2) ← parseUnary fuel r
    parseTermTail fuel (PyExpr.div a b) r2
  | fuel+1, a, Tok.dslash :: r => do
    let (b, r2) ← parseUnary fuel r
    parseTermTail fuel (PyExpr.fdiv a b) r2
  | _+1, a, r => .ok (a, r)

/-- `unary := ('-'|'+') unary | power` -/
def parseUnary : Nat → List Tok → Except String (PyExpr × List Tok)
  | 0, _ => .error "invalid syntax"
  | fuel+1, Tok.minus :: r => do
    let (a, r2) ← parseUnary fuel r
    .ok (PyExpr.neg a, r2)
  | fuel+1, Tok.plus :: r => do
    let (a, r2) ← parseUnary fuel r
    .ok (PyExpr.pos a, r2)
  | fuel+1, ts => parsePow fuel ts

/-- `power := atom ('**' unary)?` (right-associative, binds above unary). -/
def parsePow : Nat → List Tok → Except String (PyExpr × List Tok)
  | 0, _ => .error "invalid syntax"
  | fuel+1, ts => do
    let (a, r) ← parseAtom fuel ts
    match r with
    | Tok.dstar :: r2 => do
      let (b, r3) ← parseUnary fuel r2
      .ok (PyExpr.pow a b, r3)
    | _ => .ok (a, r)

/-- `atom := number | '()' | '(' expr ')'` -/
def parseAtom : Nat → List Tok → Except String (PyExpr × List Tok)
  | 0, _ => .error "invalid syntax"
  | _+1, Tok.num v :: r => .ok (PyExpr.lit v, r)
  | _+1, Tok.lparen :: Tok.rparen :: r => .ok (PyExpr.lit PyVal.unit, r)
  | fuel+1, Tok.lparen :: r => do
    let (e, r2) ← parseExpr fuel r
    match r2 with
    | Tok.rparen :: r3 => .ok (e, r3)
    | _ => .error "invalid syntax"
  | _+1, _ => .error "invalid syntax"

end

/-- Python `+` on the values of the fragment. -/
def pyAdd : PyVal → PyVal → Except String PyVal
  | .int a, .int b => .ok (.int (a + b))
  | .int a, .float b => .ok (.float (Float.ofInt a + b))
  | .float a, .int b => .ok (.float (a + Float.ofInt b))
  | .float a, .float b => .ok (.float (a + b))
  | _, _ => .error "unsupported operand type(s)"

/-- Python `-`. -/
def pySub : PyVal → PyVal → Except String PyVal
  | .int a, .int b => .ok (.int (a - b))
  | .int a, .float b => .ok (.float (Float.ofInt a - b))
  | .float a, .int b => .ok (.float (a - Float.ofInt b))
  | .float a, .float b => .ok (.float (a - b))
  | _, _ => .error "unsupported operand type(s)"

/-- Python `*`. -/
def pyMul : PyVal → PyVal → Except String PyVal
  | .int a, .int b => .ok (.int (a * b))
  | .int a, .float b => .ok (.float (Float.ofInt a * b))
  | .float a, .int b => .ok (.float (a * Float.ofInt b))
  | .float a, .float b => .ok (.float (a * b))
  | _, _ => .error "unsupported operand type(s)"

/-- Python true division `/`: int `/` int yields a float, dividing by
zero raises `ZeroDivisionError`. -/
def pyDiv : PyVal → PyVal → Except String PyVal
  | .int a, .int b =>
    if b = 0 then .error "division by zero"
    else .ok (.float (Float.ofInt a / Float.ofInt b))
  | .int a, .float b =>
    if b == 0.0 then .error "float division by zero"
    else .ok (.float (Float.ofInt a / b))
  | .float a, .int b =>
    if b = 0 then .error "float division by zero"
    else .ok (.float (a / Float.ofInt b))
  | .float a, .float b =>
    if b == 0.0 then .error "float division by zero"
    else .ok (.float (a / b))
  | _, _ => .error "unsupported operand type(s)"

/-- Python floor division `//`. -/
def pyFdiv : PyVal → PyVal → Except String PyVal
  | .int a, .int b =>
    if b = 0 then .error "integer division or modulo by zero"
    else .ok (.int (Int.fdiv a b))
  | .int a, .float b =>
    if b == 0.0 then .error "float floor division by zero"
    else .ok (.float (Float.floor (Float.ofInt a / b)))
  | .float a, .int b =>
    if b = 0 then .error "float floor division by zero"
    else .ok (.float (Float.floor (a / Float.ofInt b)))
  | .float a, .float b =>
    if b == 0.0 then .error "float floor division by zero"
    else .ok (.float (Float.floor (a / b)))
  | _, _ => .error "unsupported operand type(s)"

/-- Coerce to float for `**`. -/
def pyToFloat : PyVal → Option Float
  | .int a => some (Float.ofInt a)
  | .float a => some a
  | .unit => none

/-- Python `**`: int bases with non-negative int exponents stay ints,
otherwise float power. -/
def pyPow : PyVal → PyVal → Except String PyVal
  | .int a, .int b =>
    if 0 ≤ b then .ok (.int (a ^ b.toNat))
    else if a = 0 then .error "0.0 cannot be raised to a negative power"
    else .ok (.float (Float.pow (Float.ofInt a) (Float.ofInt b)))
  | a, b =>
    match pyToFloat a, pyToFloat b with
    | some fa, some fb => .ok (.float (Float.pow fa fb))
    | _, _ => .error "unsupported operand type(s)"

/-- Evaluation of the arithmetic abstract syntax. -/
def evalE : PyExpr → Except String PyVal
  | .lit v => .ok v
  | .neg e => do
    match (← evalE e) with
    | .int i => .ok (.int (-i))
    | .float f => .ok (.float (-f))
    | .unit => .error "bad operand type for unary -"
  | .pos e => do
    match (← evalE e) with
    | .int i => .ok (.int i)
    | .float f => .ok (.float f)
    | .unit => .error "bad operand type for unary +"
  | .add a b => do pyAdd (← evalE a) (← evalE b)
  | .sub a b => do pySub (← evalE a) (← evalE b)
  | .mul a b => do pyMul (← evalE a) (← evalE b)
  | .div a b => do pyDiv (← evalE a) (← evalE b)
  | .fdiv a b => do pyFdiv (← evalE a) (← evalE b)
  | .pow a b => do pyPow (← evalE a) (← evalE b)

/-- Model of `eval(expression)` as called by the `calculate` tool:
`.ok v` when Python `eval` returns the value `v`, `.error msg` when it
raises an exception rendered as `msg` by `str(e)`. -/
def pyEval (s : String) : Except String PyVal := do
  let ts ← tokenize (s.data.length + 1) s.data
  let (e, rest) ← parseExpr ((ts.length + 1) * 8) ts
  match rest with
  | [] => evalE e
  | _ => .error "invalid syntax"

/-! ## The tool dispatcher (`handle_call_tool`) -/

/-- The allow-list `set("0123456789+-*/.() ")` of the `calculate` tool. -/
def allowed_chars : List Char := "0123456789+-*/.() ".data

/-- The body of the `calculate` branch: reject unless every character is
allowed, otherwise evaluate; any evaluation failure is caught and
reported as text. -/
def calcResponse (expression : String) : CallToolResult :=
  if expression.data.all (fun c => allowed_chars.contains c) then
    match pyEval expression with
    | .ok result => ⟨[⟨"text", expression ++ " = " ++ pyStr result⟩]⟩
    | .error e => ⟨[⟨"text", "Calculation error: " ++ e⟩]⟩
  else
    ⟨[⟨"text", "Invalid expression. Only basic math operations allowed."⟩]⟩

/-- `"✅" if task["completed"] else "⏳"`. -/
def statusMarker (completed : Bool) : String :=
  if completed then "✅" else "⏳"

/-- One line of the `list_tasks` rendering:
`f"{status} [{task['id']}] {task['title']} (created: {task['created']})\n"`. -/
def taskLine (t : Task) : String :=
  statusMarker t.completed ++ " [" ++ toString t.id ++ "] " ++ t.title
    ++ " (created: " ++ t.created ++ ")\n"

/-- The body of the `list_tasks` branch. -/
def listTasksResponse (db : List Task) : CallToolResult :=
  if db.isEmpty then ⟨[⟨"text", "No tasks found."⟩]⟩
  else ⟨[⟨"text", db.foldl (fun acc t => acc ++ taskLine t) "Current Tasks:\n"⟩]⟩

/-- The simulated `weather_data` dictionary with its `.get` default. -/
def weather_data (city : String) : String × String × String :=
  if city = "San Francisco" then ("68°F", "Foggy", "85%")
  else if city = "New York" then ("75°F", "Sunny", "60%")
  else if city = "London" then ("62°F", "Rainy", "90%")
  else ("72°F", "Unknown", "70%")

/-- The body of the `get_weather` branch. -/
def weatherResponse (city : String) : CallToolResult :=
  ⟨[⟨"text", "Weather in " ++ city ++ ":\n🌡️ Temperature: " ++ (weather_data city).1
      ++ "\n🌤️ Condition: " ++ (weather_data city).2.1
      ++ "\n💧 Humidity: " ++ (weather_data city).2.2⟩]⟩

/-- `max(task["id"] for task in TASKS_DB) + 1 if TASKS_DB else 1`. -/
def nextId (db : List Task) : Int :=
  match db with
  | [] => 1
  | t :: ts => ts.foldl (fun m x => max m x.id) t.id + 1

/-- The `complete_task` scan: mark the first task whose id matches and
report it; report "not found" when no record matches.  The store is
returned alongside the result (the Python code mutates it in place). -/
def completeTask (task_id : Int) : List Task → List Task × Except PyExc CallToolResult
  | [] => ([], .ok ⟨[⟨"text", "Task with ID " ++ toString task_id ++ " not found."⟩]⟩)
  | t :: ts =>
    if t.id = task_id then
      (⟨t.id, t.title, t.description, true, t.created⟩ :: ts,
       .ok ⟨[⟨"text", "Task '" ++ t.title ++ "' marked as completed!"⟩]⟩)
    else
      let r := completeTask task_id ts
      (t :: r.1, r.2)

/-- The tool dispatcher `handle_call_tool(name, arguments)`: the mutable
`TASKS_DB` is passed in and returned, the current date is the parameter
`today`, and a raised exception is the `.error` side of the result. -/
def handle_call_tool (today name : String) (arguments : Arguments) (db : List Task) :
    List Task × Except PyExc CallToolResult :=
  if name = "add_task" then
    match arguments.title with
    | none => (db, .error (.keyError "title"))
    | some title =>
      let new_task : Task :=
        ⟨nextId db, title, some (arguments.description.getD ""), false, today⟩
      (db ++ [new_task],
       .ok ⟨[⟨"text", "Task '" ++ title ++ "' added with ID " ++ toString new_task.id⟩]⟩)
  else if name = "list_tasks" then
    (db, .ok (listTasksResponse db))
  else if name = "complete_task" then
    match arguments.task_id with
    | none => (db, .error (.keyError "task_id"))
    | some task_id => completeTask task_id db
  else if name = "get_weather" then
    match arguments.city with
    | none => (db, .error (.keyError "city"))
    | some city => (db, .ok (weatherResponse city))
  else if name = "calculate" then
    match arguments.expression with
    | none => (db, .error (.keyError "expression"))
    | some expression => (db, .ok (calcResponse expression))
  else (db, .error (.valueError ("Unknown tool: " ++ name)))

/-! ## The resource handlers -/

/-- Minimal model of `json.dumps` string escaping. -/
def jsonEscape (s : String) : String :=
  String.join (s.data.map (fun c =>
    if c = '"' then "\\\"" else if c = '\\' then "\\\\"
    else if c = '\n' then "\\n" else String.singleton c))

/-- One task as rendered by `json.dumps(TASKS_DB, indent=2)` (keys in
insertion order; the `description` key only when present). -/
def taskJson (t : Task) : String :=
  "\x7b\n    \"id\": " ++ toString t.id ++ ",\n    \"title\": \"" ++ jsonEscape t.title ++ "\","
    ++ (match t.description with
        | none => ""
        | some d => "\n    \"description\": \"" ++ jsonEscape d ++ "\",")
    ++ "\n    \"completed\": " ++ (if t.completed then "true" else "false")
    ++ ",\n    \"created\": \"" ++ jsonEscape t.created ++ "\"\n  \x7d"

/-- `json.dumps(TASKS_DB, indent=2)`. -/
def tasksJson (db : List Task) : String :=
  if db.isEmpty then "[]"
  else "[\n  " ++ String.intercalate ",\n  " (db.map taskJson) ++ "\n]"

/-- `Path(name).stem`: the filename without its final suffix. -/
def stem (n : String) : String :=
  match n.data.reverse.dropWhile (· ≠ '.') with
  | [] => n
  | _ :: [] => n
  | _ :: rest => ⟨rest.reverse⟩

/-- `name.glob` match for the pattern `*.md`. -/
def isMdFile (n : String) : Bool :=
  ".md".data.isSuffixOf n.data

/-- The `Resource` built for one discovered note file
(`f"file://{note_file}"` with `note_file = Path("./notes") / name`). -/
def noteResource (name : String) : Resource :=
  ⟨"file://notes/" ++ name,
   "Note: " ++ stem name,
   "Learning note about " ++ String.mk ((stem name).data.map (fun c => if c = '_' then ' ' else c)),
   "text/markdown"⟩

/-- `handle_list_resources()`: the task database, one resource per `*.md`
file of the current notes directory listing, and the system info. -/
def handle_list_resources (dirListing : List String) : List Resource :=
  ⟨"tasks://database", "Task Database", "Current task list with completion status",
   "application/json"⟩
    :: (dirListing.filter isMdFile).map noteResource
    ++ [⟨"system://info", "System Information", "Current system date and time information",
         "application/json"⟩]

/-- The JSON of the `system://info` resource. -/
def systemInfoJson (now platformName cwd : String) : String :=
  "\x7b\n  \"current_time\": \"" ++ jsonEscape now ++ "\",\n  \"server_name\": \"mcp-learning-server\",\n  \"platform\": \"" ++ jsonEscape platformName ++ "\",\n  \"working_directory\": \"" ++ jsonEscape cwd ++ "\"\n\x7d"

/-- `handle_read_resource(uri)`: the filesystem is the association list
`fs` of existing regular files and their contents; `uri[7:]` is modelled
on the character list.  A missing note file raises `FileNotFoundError`,
an unrecognized URI raises `ValueError`. -/
def handle_read_resource (fs : List (String × String)) (now platformName cwd : String)
    (db : List Task) (uri : String) : Except PyExc ReadResourceResult :=
  if uri = "tasks://database" then
    .ok ⟨[⟨"text", tasksJson db⟩]⟩
  else if "file://".data.isPrefixOf uri.data then
    let file_path : String := ⟨uri.data.drop 7⟩
    match fs.lookup file_path with
    | some content => .ok ⟨[⟨"text", content⟩]⟩
    | none => .error (.fileNotFound ("File not found: " ++ file_path))
  else if uri = "system://info" then
    .ok ⟨[⟨"text", systemInfoJson now platformName cwd⟩]⟩
  else .error (.valueError ("Unknown resource URI: " ++ uri))

/-! ## Harness for sequences of `add_task` calls -/

/-- The argument mapping of an `add_task` call. -/
def addReq (title descr : String) : Arguments :=
  ⟨some title, some descr, none, none, none⟩

/-- Run a sequence of `add_task` calls (each request is a triple
`(today, title, description)`); return the final store and the ids
assigned along the way. -/
def runAdds : List Task → List (String × String × String) → List Task × List Int
  | db, [] => (db, [])
  | db, r :: rest =>
    let db1 := (handle_call_tool r.1 "add_task" (addReq r.2.1 r.2.2) db).1
    let res := runAdds db1 rest
    (res.1, nextId db :: res.2)

/-- Pointwise store evolution under one dispatcher call: no task is
removed, every pre-existing task keeps its identity fields, a completion
flag never reverts from `true`, and any appended task starts
uncompleted. -/
def StorePreserved (db db' : List Task) : Prop :=
  db.length ≤ db'.length ∧
  (∀ i, ∀ hi : i < db.length, ∀ hi' : i < db'.length,
    db'[i].id = db[i].id ∧ db'[i].title = db[i].title ∧
    db'[i].description = db[i].description ∧ db'[i].created = db[i].created ∧
    (db[i].completed = true → db'[i].completed = true)) ∧
  (∀ j, ∀ hj : j < db'.length, db.length ≤ j → db'[j].completed = false)

/-! ## General lemmas about strings viewed as character lists -/

theorem data_append (a b : String) : (a ++ b).data = a.data ++ b.data := by
  cases a; cases b; rfl

theorem str_ext {a b : String} (h : a.data = b.data) : a = b := by
  cases a; cases b; exact congrArg String.mk h

theorem foldl_str_data (l : List String) (init : String) :
    (l.foldl (· ++ ·) init).data = init.data ++ (l.map String.data).flatten := by
  induction l generalizing init with
  | nil => simp
  | cons h t ih => simp [ih, data_append]

theorem join_strings_data (l : List String) :
    (String.join l).data = (l.map String.data).flatten := by
  show (l.foldl (fun r s => r ++ s) "").data = _
  rw [foldl_str_data]
  rfl

/-! ## C4: the two calculator examples -/

/-- C4: `calculate("2 + 2")` returns a normal result whose text is
exactly `"2 + 2 = 4"`, and `calculate("import os")` returns the
disallowed-expression message rather than any evaluation. -/
theorem calculate_examples (db : List Task) (today : String) :
    handle_call_tool today "calculate" ⟨none, none, none, none, some "2 + 2"⟩ db
      = (db, .ok ⟨[⟨"text", "2 + 2 = 4"⟩]⟩) ∧
    handle_call_tool today "calculate" ⟨none, none, none, none, some "import os"⟩ db
      = (db, .ok ⟨[⟨"text", "Invalid expression. Only basic math operations allowed."⟩]⟩) :=
  ⟨rfl, rfl⟩

/-! ## C5: the calculator is total and always soft -/

/-- C5: for every expression string the `calculate` tool returns a
normal (non-error) result; a character outside the allow-list yields the
explanatory rejection text, an allowed expression yields the
input-and-result text on success, and any evaluation failure is caught
and reported as a textual message inside the normal result. -/
theorem calculate_total_soft (db : List Task) (today e : String) :
    ∃ txt, handle_call_tool today "calculate" ⟨none, none, none, none, some e⟩ db
        = (db, .ok ⟨[⟨"text", txt⟩]⟩) ∧
      (e.data.all (fun c => allowed_chars.contains c) = false →
        txt = "Invalid expression. Only basic math operations allowed.") ∧
      (e.data.all (fun c => allowed_chars.contains c) = true →
        (∀ v, pyEval e = .ok v → txt = e ++ " = " ++ pyStr v) ∧
        (∀ msg, pyEval e = .error msg → txt = "Calculation error: " ++ msg)) := by
  have hred : handle_call_tool today "calculate" ⟨none, none, none, none, some e⟩ db
      = (db, .ok (calcResponse e)) := rfl
  by_cases hall : e.data.all (fun c => allowed_chars.contains c) = true
  · cases hev : pyEval e with
    | ok v =>
      have hcalc : calcResponse e = ⟨[⟨"text", e ++ " = " ++ pyStr v⟩]⟩ := by
        unfold calcResponse
        rw [if_pos hall, hev]
      refine ⟨e ++ " = " ++ pyStr v, by rw [hred, hcalc], fun hf => ?_,
        fun _ => ⟨fun v' hv' => ?_, fun msg hmsg => ?_⟩⟩
      · rw [hall] at hf; exact Bool.noConfusion hf
      · injection hv' with h; rw [h]
      · cases hmsg
    | error m =>
      have hcalc : calcResponse e = ⟨[⟨"text", "Calculation error: " ++ m⟩]⟩ := by
        unfold calcResponse
        rw [if_pos hall, hev]
      refine ⟨"Calculation error: " ++ m, by rw [hred, hcalc], fun hf => ?_,
        fun _ => ⟨fun v' hv' => ?_, fun msg hmsg => ?_⟩⟩
      · rw [hall] at hf; exact Bool.noConfusion hf
      · cases hv'
      · injection hmsg with h; rw [h]
  · have hcalc : calcResponse e
        = ⟨[⟨"text", "Invalid expression. Only basic math operations allowed."⟩]⟩ := by
      unfold calcResponse
      rw [if_neg hall]
    exact ⟨"Invalid expression. Only basic math operations allowed.",
      by rw [hred, hcalc], fun _ => rfl, fun hc => absurd hc hall⟩

theorem calculate_total_soft_w :
    handle_call_tool "d" "calculate" ⟨none, none, none, none, some "1/0"⟩ []
      = ([], .ok ⟨[⟨"text", "Calculation error: division by zero"⟩]⟩) := by
  obtain ⟨txt, heq, _, hok⟩ := calculate_total_soft [] "d" "1/0"
  have hall : "1/0".data.all (fun c => allowed_chars.contains c) = true := by decide
  have herr : pyEval "1/0" = .error "division by zero" := rfl
  rw [(hok hall).2 "division by zero" herr] at heq
  exact heq

/-! ## C2: `complete_task` on an absent id -/

theorem complete_not_found_aux (tid : Int) (db : List Task) (h : ∀ t ∈ db, t.id ≠ tid) :
    completeTask tid db
      = (db, .ok ⟨[⟨"text", "Task with ID " ++ toString tid ++ " not found."⟩]⟩) := by
  induction db with
  | nil => rfl
  | cons t ts ih =>
    have hne : t.id ≠ tid := h t (List.mem_cons_self t ts)
    have ih' := ih (fun x hx => h x (List.mem_cons_of_mem _ hx))
    simp [completeTask, hne, ih']

/-- C2: completing a task id that matches no task in the store leaves the
store unchanged and returns a normal result whose text names that id as
not found. -/
theorem complete_task_not_found_no_mutation (db : List Task) (tid : Int) (today : String)
    (h : ∀ t ∈ db, t.id ≠ tid) :
    handle_call_tool today "complete_task" ⟨none, none, some tid, none, none⟩ db
      = (db, .ok ⟨[⟨"text", "Task with ID " ++ toString tid ++ " not found."⟩]⟩) := by
  have hred : handle_call_tool today "complete_task" ⟨none, none, some tid, none, none⟩ db
      = completeTask tid db := rfl
  rw [hred]
  exact complete_not_found_aux tid db h

theorem complete_task_not_found_no_mutation_w :
    handle_call_tool "d" "complete_task" ⟨none, none, some 99, none, none⟩ TASKS_DB
      = (TASKS_DB, .ok ⟨[⟨"text", "Task with ID 99 not found."⟩]⟩) :=
  complete_task_not_found_no_mutation TASKS_DB 99 "d" (by decide)

/-! ## C6: unknown tool names are a hard failure -/

/-- C6: a tool name outside the five registered ones makes the dispatcher
raise `ValueError` (a hard failure handed to the transport layer, with
the store untouched), while a known tool such as `complete_task` on a
missing id produces a normal (non-error) result. -/
theorem unknown_tool_hard_failure (today name : String) (args : Arguments) (db : List Task)
    (h : name ∉ ["add_task", "list_tasks", "complete_task", "get_weather", "calculate"]) :
    handle_call_tool today name args db
      = (db, .error (.valueError ("Unknown tool: " ++ name))) ∧
    ∀ tid : Int, ∀ db2 : List Task, (∀ t ∈ db2, t.id ≠ tid) →
      ((handle_call_tool today "complete_task" ⟨none, none, some tid, none, none⟩ db2).2).isOk
        = true := by
  constructor
  · have h1 : name ≠ "add_task" := fun hq => h (by simp [hq])
    have h2 : name ≠ "list_tasks" := fun hq => h (by simp [hq])
    have h3 : name ≠ "complete_task" := fun hq => h (by simp [hq])
    have h4 : name ≠ "get_weather" := fun hq => h (by simp [hq])
    have h5 : name ≠ "calculate" := fun hq => h (by simp [hq])
    simp [handle_call_tool, h1, h2, h3, h4, h5]
  · intro tid db2 hmiss
    have hred : handle_call_tool today "complete_task" ⟨none, none, some tid, none, none⟩ db2
        = completeTask tid db2 := rfl
    rw [hred, complete_not_found_aux tid db2 hmiss]
    rfl

theorem unknown_tool_hard_failure_w :
    handle_call_tool "d" "frobnicate" ⟨none, none, none, none, none⟩ TASKS_DB
      = (TASKS_DB, .error (.valueError "Unknown tool: frobnicate")) ∧
    ((handle_call_tool "d" "complete_task" ⟨none, none, some 42, none, none⟩ TASKS_DB).2).isOk
      = true := by
  have H := unknown_tool_hard_failure "d" "frobnicate" ⟨none, none, none, none, none⟩ TASKS_DB
    (by decide)
  exact ⟨H.1, H.2 42 TASKS_DB (by decide)⟩

/-! ## C10: `get_weather` is total with a fixed default -/

/-- C10: `get_weather` returns a normal text result for every city, and
for any city other than the three hard-coded ones the text reports the
default 72°F / Unknown / 70% weather. -/
theorem get_weather_total_default (db : List Task) (today city : String) :
    ∃ txt, handle_call_tool today "get_weather" ⟨none, none, none, some city, none⟩ db
        = (db, .ok ⟨[⟨"text", txt⟩]⟩) ∧
      (city ∉ ["San Francisco", "New York", "London"] →
        txt = "Weather in " ++ city
          ++ ":\n🌡️ Temperature: 72°F\n🌤️ Condition: Unknown\n💧 Humidity: 70%") := by
  refine ⟨"Weather in " ++ city ++ ":\n🌡️ Temperature: " ++ (weather_data city).1
    ++ "\n🌤️ Condition: " ++ (weather_data city).2.1
    ++ "\n💧 Humidity: " ++ (weather_data city).2.2, rfl, ?_⟩
  intro h
  have h1 : city ≠ "San Francisco" := fun hq => h (by simp [hq])
  have h2 : city ≠ "New York" := fun hq => h (by simp [hq])
  have h3 : city ≠ "London" := fun hq => h (by simp [hq])
  have hw : weather_data city = ("72°F", "Unknown", "70%") := by
    simp [weather_data, h1, h2, h3]
  rw [hw]
  apply str_ext
  simp [data_append]

/-! ## C8: `list_tasks` rendering -/

/-- C8: `list_tasks` on an empty store returns the designated empty-state
message; on a non-empty store it renders all tasks in insertion order,
and every rendered line contains the task's id, its title, and a status
marker determined by (and distinguishing) the completion flag. -/
theorem list_tasks_rendering (db : List Task) (today : String) :
    (db = [] → handle_call_tool today "list_tasks" ⟨none, none, none, none, none⟩ db
        = (db, .ok ⟨[⟨"text", "No tasks found."⟩]⟩)) ∧
    (db ≠ [] → handle_call_tool today "list_tasks" ⟨none, none, none, none, none⟩ db
        = (db, .ok ⟨[⟨"text", "Current Tasks:\n" ++ String.join (db.map taskLine)⟩]⟩)) ∧
    (∀ t : Task,
      (∃ a b, taskLine t = a ++ toString t.id ++ b) ∧
      (∃ a b, taskLine t = a ++ t.title ++ b) ∧
      (∃ b, taskLine t = statusMarker t.completed ++ b) ∧
      statusMarker true ≠ statusMarker false) := by
  refine ⟨fun h => by subst h; rfl, fun h => ?_, fun t =>
    ⟨⟨statusMarker t.completed ++ " [",
      "] " ++ t.title ++ " (created: " ++ t.created ++ ")\n", ?_⟩,
     ⟨statusMarker t.completed ++ " [" ++ toString t.id ++ "] ",
      " (created: " ++ t.created ++ ")\n", ?_⟩,
     ⟨" [" ++ toString t.id ++ "] " ++ t.title ++ " (created: " ++ t.created ++ ")\n", ?_⟩,
     by decide⟩⟩
  · have hred : handle_call_tool today "list_tasks" ⟨none, none, none, none, none⟩ db
        = (db, .ok (listTasksResponse db)) := rfl
    have hne : db.isEmpty = false := by
      cases db with
      | nil => exact absurd rfl h
      | cons a l => rfl
    have hfold : db.foldl (fun acc t => acc ++ taskLine t) "Current Tasks:\n"
        = "Current Tasks:\n" ++ String.join (db.map taskLine) := by
      apply str_ext
      rw [data_append, join_strings_data]
      have hmap : db.foldl (fun acc t => acc ++ taskLine t) "Current Tasks:\n"
          = (db.map taskLine).foldl (· ++ ·) "Current Tasks:\n" := by
        rw [List.foldl_map]
      rw [hmap, foldl_str_data]
    have hresp : listTasksResponse db
        = ⟨[⟨"text", "Current Tasks:\n" ++ String.join (db.map taskLine)⟩]⟩ := by
      unfold listTasksResponse
      rw [if_neg (by simp [hne]), hfold]
    rw [hred, hresp]
  · apply str_ext; simp [taskLine, data_append, List.append_assoc]
  · apply str_ext; simp [taskLine, data_append, List.append_assoc]
  · apply str_ext; simp [taskLine, data_append, List.append_assoc]

theorem list_tasks_rendering_w :
    handle_call_tool "d" "list_tasks" ⟨none, none, none, none, none⟩ TASKS_DB
      = (TASKS_DB, .ok ⟨[⟨"text", "Current Tasks:\n" ++ String.join (TASKS_DB.map taskLine)⟩]⟩) :=
  (list_tasks_rendering TASKS_DB "d").2.1 (by decide)

/-! ## C3: a missing note file is in fact a hard failure -/

/-- C3, counterexample: reading a `file://` URI whose remainder names no
existing regular file does NOT produce a normal text result — the handler
raises `FileNotFoundError`, which propagates to the transport layer. -/
theorem read_missing_note_hard_failure_cex :
    handle_read_resource [("notes/mcp_basics.md", "seed")] "t" "posix" "/w" TASKS_DB
        "file://notes/missing.md"
      = .error (.fileNotFound "File not found: notes/missing.md") := rfl

/-- C3, amended: for every URI beginning with `file://` whose remainder
names no existing regular file, `handle_read_resource` raises a
`FileNotFoundError` naming that path — a hard failure propagated to the
caller (distinct from the unknown-URI `ValueError`), not a soft textual
result. -/
theorem read_missing_note_raises (fs : List (String × String)) (now pf cwd : String)
    (db : List Task) (uri : String)
    (hpre : "file://".data.isPrefixOf uri.data = true)
    (hmiss : fs.lookup (⟨uri.data.drop 7⟩ : String) = none) :
    handle_read_resource fs now pf cwd db uri
      = .error (.fileNotFound ("File not found: " ++ (⟨uri.data.drop 7⟩ : String))) := by
  have hne : uri ≠ "tasks://database" := by
    intro hq
    rw [hq] at hpre
    exact absurd hpre (by decide)
  simp [handle_read_resource, hne, hpre, hmiss]

theorem read_missing_note_raises_w :
    handle_read_resource [("notes/mcp_basics.md", "seed")] "t" "posix" "/w" []
        "file://notes/zzz.md"
      = .error (.fileNotFound "File not found: notes/zzz.md") :=
  read_missing_note_raises [("notes/mcp_basics.md", "seed")] "t" "posix" "/w" []
    "file://notes/zzz.md" (by decide) (by decide)

/-! ## C7: note discovery is dynamic, but only for `*.md` files -/

/-- C7, counterexample: adding a file that does not match `*.md` to the
notes directory does not change the resource listing at all, so "adding
one file increases the returned set by exactly one entry" is false as
stated. -/
theorem list_resources_non_md_cex :
    handle_list_resources ["mcp_basics.md", "extra.txt"]
        = handle_list_resources ["mcp_basics.md"] ∧
    ¬ ((handle_list_resources ["mcp_basics.md", "extra.txt"]).length
        = (handle_list_resources ["mcp_basics.md"]).length + 1) :=
  ⟨rfl, by decide⟩

/-- C7, amended: enumeration re-scans the directory listing each call,
and adding one file matching `*.md` anywhere in the notes directory
between two calls inserts exactly one new entry, whose URI is built from
that file's path, leaving all other entries as they were. -/
theorem list_resources_md_insertion (l₁ l₂ : List String) (f : String)
    (hf : isMdFile f = true) :
    ∃ A B, handle_list_resources (l₁ ++ l₂) = A ++ B ∧
      handle_list_resources (l₁ ++ f :: l₂) = A ++ noteResource f :: B ∧
      (handle_list_resources (l₁ ++ f :: l₂)).length
        = (handle_list_resources (l₁ ++ l₂)).length + 1 ∧
      (noteResource f).uri = "file://notes/" ++ f := by
  refine ⟨⟨"tasks://database", "Task Database", "Current task list with completion status",
      "application/json"⟩ :: (l₁.filter isMdFile).map noteResource,
    (l₂.filter isMdFile).map noteResource
      ++ [⟨"system://info", "System Information",
           "Current system date and time information", "application/json"⟩],
    ?_, ?_, ?_, rfl⟩
  · simp [handle_list_resources, List.filter_append]
  · simp [handle_list_resources, List.filter_append, List.filter_cons, hf]
  · simp [handle_list_resources, List.filter_append, List.filter_cons, hf]
    omega

theorem list_resources_md_insertion_w :
    (handle_list_resources (["mcp_basics.md"] ++ "new_note.md" :: [])).length
      = (handle_list_resources (["mcp_basics.md"] ++ ([] : List String))).length + 1 := by
  obtain ⟨A, B, _, _, hlen, _⟩ :=
    list_resources_md_insertion ["mcp_basics.md"] [] "new_note.md" (by decide)
  exact hlen

theorem get_weather_total_default_w :
    handle_call_tool "d" "get_weather" ⟨none, none, none, some "Paris", none⟩ []
      = ([], .ok ⟨[⟨"text",
          "Weather in Paris:\n🌡️ Temperature: 72°F\n🌤️ Condition: Unknown\n💧 Humidity: 70%"⟩]⟩) := by
  obtain ⟨txt, heq, hdef⟩ := get_weather_total_default [] "d" "Paris"
  rw [hdef (by decide)] at heq
  exact heq

/-! ## C1: id assignment along sequences of `add_task` calls -/

theorem foldlMax_le (l : List Task) (a : Int) :
    a ≤ l.foldl (fun m x => max m x.id) a := by
  induction l generalizing a with
  | nil => exact le_refl a
  | cons t ts ih => exact le_trans (le_max_left a t.id) (ih (max a t.id))

theorem mem_le_foldlMax : ∀ (l : List Task) (a : Int), ∀ t ∈ l,
    t.id ≤ l.foldl (fun m x => max m x.id) a := by
  intro l
  induction l with
  | nil => intro a t ht; cases ht
  | cons h ts ih =>
    intro a t ht
    rcases List.mem_cons.mp ht with heq | hmem
    · rw [heq]
      exact le_trans (le_max_right a h.id) (foldlMax_le ts (max a h.id))
    · exact ih (max a h.id) t hmem

theorem lt_nextId (db : List Task) : ∀ t ∈ db, t.id < nextId db := by
  intro t ht
  cases db with
  | nil => cases ht
  | cons h ts =>
    have hle : t.id ≤ ts.foldl (fun m x => max m x.id) h.id := by
      rcases List.mem_cons.mp ht with heq | hmem
      · rw [heq]
        exact foldlMax_le ts h.id
      · exact mem_le_foldlMax ts h.id t hmem
    show t.id < ts.foldl (fun m x => max m x.id) h.id + 1
    omega

theorem foldlMax_mem : ∀ (l : List Task) (a : Int),
    l.foldl (fun m x => max m x.id) a = a
      ∨ ∃ t ∈ l, l.foldl (fun m x => max m x.id) a = t.id := by
  intro l
  induction l with
  | nil => intro a; exact .inl rfl
  | cons h ts ih =>
    intro a
    rcases ih (max a h.id) with heq | ⟨t, ht, heq⟩
    · rcases max_cases a h.id with ⟨hm, _⟩ | ⟨hm, _⟩
      · exact .inl (by show ts.foldl _ (max a h.id) = a; rw [heq, hm])
      · exact .inr ⟨h, List.mem_cons_self h ts,
          by show ts.foldl _ (max a h.id) = h.id; rw [heq, hm]⟩
    · exact .inr ⟨t, List.mem_cons_of_mem h ht, heq⟩

theorem nextId_eq_succ_mem (db : List Task) (hne : db ≠ []) :
    ∃ t ∈ db, nextId db = t.id + 1 := by
  cases db with
  | nil => exact absurd rfl hne
  | cons h ts =>
    rcases foldlMax_mem ts h.id with heq | ⟨t, ht, heq⟩
    · exact ⟨h, List.mem_cons_self h ts,
        by show ts.foldl (fun m x => max m x.id) h.id + 1 = h.id + 1; rw [heq]⟩
    · exact ⟨t, List.mem_cons_of_mem h ht,
        by show ts.foldl (fun m x => max m x.id) h.id + 1 = t.id + 1; rw [heq]⟩

theorem nextId_append (db : List Task) (t : Task) (h : t.id = nextId db) :
    nextId (db ++ [t]) = nextId db + 1 := by
  cases db with
  | nil =>
    simp [nextId] at h
    simp [nextId, h]
  | cons hd ts =>
    have h' : t.id = ts.foldl (fun m x => max m x.id) hd.id + 1 := h
    have hfold : (ts ++ [t]).foldl (fun m x => max m x.id) hd.id
        = max (ts.foldl (fun m x => max m x.id) hd.id) t.id := by
      rw [List.foldl_append]
      rfl
    show (ts ++ [t]).foldl (fun m x => max m x.id) hd.id + 1
        = ts.foldl (fun m x => max m x.id) hd.id + 1 + 1
    rw [hfold, max_eq_right (by omega)]
    omega

theorem runAdds_spec (reqs : List (String × String × String)) :
    ∀ db : List Task, ∃ ts : List Task,
      (runAdds db reqs).1 = db ++ ts ∧
      (runAdds db reqs).2 = ts.map Task.id ∧
      List.Chain' (· < ·) ((runAdds db reqs).2) ∧
      (∀ a ∈ (runAdds db reqs).2, nextId db ≤ a) ∧
      nextId (db ++ ts) = nextId db + ts.length := by
  induction reqs with
  | nil =>
    intro db
    exact ⟨[], by simp [runAdds], by simp [runAdds], by simp [runAdds],
      by simp [runAdds], by simp⟩
  | cons r rest ih =>
    intro db
    obtain ⟨ts', h1, h2, h3, h4, h5⟩ := ih (db ++ [(⟨nextId db, r.2.1, some r.2.2, false, r.1⟩ : Task)])
    have hni : nextId (db ++ [(⟨nextId db, r.2.1, some r.2.2, false, r.1⟩ : Task)])
        = nextId db + 1 := nextId_append db _ rfl
    refine ⟨⟨nextId db, r.2.1, some r.2.2, false, r.1⟩ :: ts', ?_, ?_, ?_, ?_, ?_⟩
    · show (runAdds (db ++ [(⟨nextId db, r.2.1, some r.2.2, false, r.1⟩ : Task)]) rest).1 = _
      rw [h1]
      simp
    · show nextId db
          :: (runAdds (db ++ [(⟨nextId db, r.2.1, some r.2.2, false, r.1⟩ : Task)]) rest).2 = _
      rw [h2]
      rfl
    · show List.Chain' (· < ·) (nextId db
        :: (runAdds (db ++ [(⟨nextId db, r.2.1, some r.2.2, false, r.1⟩ : Task)]) rest).2)
      refine List.chain'_cons'.mpr ⟨?_, h3⟩
      intro y hy
      have hmem := List.mem_of_mem_head? hy
      have := h4 y hmem
      omega
    · intro a ha
      rcases List.mem_cons.mp ha with heq | hmem
      · omega
      · have := h4 a hmem
        omega
    · have hassoc : db ++ (⟨nextId db, r.2.1, some r.2.2, false, r.1⟩ : Task) :: ts'
          = (db ++ [(⟨nextId db, r.2.1, some r.2.2, false, r.1⟩ : Task)]) ++ ts' := by
        simp
      rw [hassoc, h5, hni]
      simp
      omega

/-- C1: one `add_task` call appends a single new task whose id is `1` on
an empty store and `max(existing) + 1` on a non-empty store (it exceeds
every existing id and is one more than some existing id); consequently
along any sequence of `add_task` calls from any store the assigned ids
are strictly increasing, and each occurs exactly once in the final
store. -/
theorem add_task_ids_monotone_unique (db : List Task) (today title descr : String)
    (reqs : List (String × String × String)) :
    (∃ new_task : Task,
      handle_call_tool today "add_task" (addReq title descr) db
        = (db ++ [new_task],
           .ok ⟨[⟨"text", "Task '" ++ title ++ "' added with ID " ++ toString new_task.id⟩]⟩) ∧
      (db = [] → new_task.id = 1) ∧
      (∀ t ∈ db, t.id < new_task.id) ∧
      (db ≠ [] → ∃ t ∈ db, new_task.id = t.id + 1)) ∧
    List.Chain' (· < ·) (runAdds db reqs).2 ∧
    (∀ a ∈ (runAdds db reqs).2, (((runAdds db reqs).1).map Task.id).count a = 1) := by
  obtain ⟨ts, h1, h2, h3, h4, _⟩ := runAdds_spec reqs db
  refine ⟨⟨⟨nextId db, title, some descr, false, today⟩, rfl, fun h => by subst h; rfl,
    lt_nextId db, nextId_eq_succ_mem db⟩, h3, ?_⟩
  intro a ha
  rw [h1, List.map_append, List.count_append]
  have hdb : (db.map Task.id).count a = 0 := by
    rw [List.count_eq_zero]
    intro hmem
    obtain ⟨t, htmem, hta⟩ := List.mem_map.mp hmem
    have hlt := lt_nextId db t htmem
    have hge := h4 a ha
    omega
  have hts : (ts.map Task.id).count a = 1 := by
    have hp : List.Pairwise (· < ·) (ts.map Task.id) := by
      rw [← h2]
      exact List.chain'_iff_pairwise.mp h3
    have hnd : (ts.map Task.id).Nodup := hp.imp (fun hab => ne_of_lt hab)
    have hmem : a ∈ ts.map Task.id := by rw [← h2]; exact ha
    exact List.count_eq_one_of_mem hnd hmem
  omega

theorem add_task_ids_monotone_unique_w :
    (∃ nt : Task, (handle_call_tool "2025-10-12" "add_task" (addReq "t" "") []).1 = [nt]
      ∧ nt.id = 1) ∧
    List.Chain' (· < ·) (runAdds [] [("d1", "a", ""), ("d2", "b", "")]).2 := by
  obtain ⟨⟨nt, heq, hone, _, _⟩, _, _⟩ :=
    add_task_ids_monotone_unique [] "2025-10-12" "t" "" []
  refine ⟨⟨nt, ?_, hone rfl⟩,
    (add_task_ids_monotone_unique [] "d" "x" "y" [("d1", "a", ""), ("d2", "b", "")]).2.1⟩
  have := congrArg Prod.fst heq
  simpa using this

/-! ## C9: lifecycle of tasks under the dispatcher -/

theorem storePreserved_refl (db : List Task) : StorePreserved db db :=
  ⟨le_refl _, fun _ _ _ => ⟨rfl, rfl, rfl, rfl, fun h => h⟩,
   fun _ hj hge => absurd hj (by omega)⟩

theorem storePreserved_append (db : List Task) (t : Task) (hc : t.completed = false) :
    StorePreserved db (db ++ [t]) := by
  refine ⟨by simp, ?_, ?_⟩
  · intro i hi hi'
    have hget : (db ++ [t])[i] = db[i] := List.getElem_append_left hi
    rw [hget]
    exact ⟨rfl, rfl, rfl, rfl, fun h => h⟩
  · intro j hj hge
    have hj' : j = db.length := by
      simp at hj
      omega
    subst hj'
    have hget : (db ++ [t])[db.length] = t := by
      rw [List.getElem_append_right (le_refl _)]
      simp
    rw [hget]
    exact hc

theorem completeTask_preserved (tid : Int) (db : List Task) :
    StorePreserved db (completeTask tid db).1
      ∧ ((completeTask tid db).1).length = db.length := by
  induction db with
  | nil => exact ⟨storePreserved_refl [], rfl⟩
  | cons t ts ih =>
    obtain ⟨⟨hlen, hfield, hnew⟩, hlen2⟩ := ih
    by_cases hid : t.id = tid
    · have hred : (completeTask tid (t :: ts)).1
          = (⟨t.id, t.title, t.description, true, t.created⟩ : Task) :: ts := by
        simp [completeTask, hid]
      rw [hred]
      refine ⟨⟨by simp, ?_, ?_⟩, by simp⟩
      · intro i hi hi'
        cases i with
        | zero => exact ⟨rfl, rfl, rfl, rfl, fun _ => rfl⟩
        | succ n => exact ⟨rfl, rfl, rfl, rfl, fun h => h⟩
      · intro j hj hge
        exact absurd hge (by simp only [List.length_cons] at hj ⊢; omega)
    · have hred : (completeTask tid (t :: ts)).1 = t :: (completeTask tid ts).1 := by
        simp [completeTask, hid]
      rw [hred]
      refine ⟨⟨by simp [hlen2], ?_, ?_⟩, by simp [hlen2]⟩
      · intro i hi hi'
        cases i with
        | zero => exact ⟨rfl, rfl, rfl, rfl, fun h => h⟩
        | succ n =>
          exact hfield n (by simp only [List.length_cons] at hi; omega)
            (by simp only [List.length_cons] at hi'; omega)
      · intro j hj hge
        cases j with
        | zero => exact absurd hge (by simp)
        | succ n =>
          exact hnew n (by simp only [List.length_cons] at hj; omega)
            (by simp only [List.length_cons] at hge; omega)

/-- C9: under every dispatcher call the store only grows (nothing is ever
removed); pre-existing tasks keep their id, title, description and
creation date, and their completion flag is monotone (never reverts from
`true`); any task appended in the call starts with `completed = false`;
only `add_task` changes the length, and only `add_task`/`complete_task`
change the store at all. -/
theorem task_lifecycle_monotone (today name : String) (args : Arguments) (db : List Task) :
    StorePreserved db (handle_call_tool today name args db).1 ∧
    (name ≠ "add_task" → ((handle_call_tool today name args db).1).length = db.length) ∧
    (name ≠ "add_task" → name ≠ "complete_task" →
      (handle_call_tool today name args db).1 = db) := by
  obtain ⟨t0, d0, ti0, c0, e0⟩ := args
  by_cases h1 : name = "add_task"
  · subst h1
    cases t0 with
    | none => exact ⟨storePreserved_refl db, fun _ => rfl, fun hc _ => absurd rfl hc⟩
    | some title =>
      exact ⟨storePreserved_append db _ rfl, fun hc => absurd rfl hc,
        fun hc _ => absurd rfl hc⟩
  · by_cases h2 : name = "list_tasks"
    · subst h2
      exact ⟨storePreserved_refl db, fun _ => rfl, fun _ _ => rfl⟩
    · by_cases h3 : name = "complete_task"
      · subst h3
        cases ti0 with
        | none => exact ⟨storePreserved_refl db, fun _ => rfl, fun _ hc => absurd rfl hc⟩
        | some tid =>
          exact ⟨(completeTask_preserved tid db).1,
            fun _ => (completeTask_preserved tid db).2, fun _ hc => absurd rfl hc⟩
      · by_cases h4 : name = "get_weather"
        · subst h4
          cases c0 with
          | none => exact ⟨storePreserved_refl db, fun _ => rfl, fun _ _ => rfl⟩
          | some city => exact ⟨storePreserved_refl db, fun _ => rfl, fun _ _ => rfl⟩
        · by_cases h5 : name = "calculate"
          · subst h5
            cases e0 with
            | none => exact ⟨storePreserved_refl db, fun _ => rfl, fun _ _ => rfl⟩
            | some e => exact ⟨storePreserved_refl db, fun _ => rfl, fun _ _ => rfl⟩
          · have hred : handle_call_tool today name ⟨t0, d0, ti0, c0, e0⟩ db
                = (db, .error (.valueError ("Unknown tool: " ++ name))) := by
              simp [handle_call_tool, h1, h2, h3, h4, h5]
            rw [hred]
            exact ⟨storePreserved_refl db, fun _ => rfl, fun _ _ => rfl⟩

theorem task_lifecycle_monotone_w :
    (handle_call_tool "d" "get_weather" ⟨none, none, none, some "Paris", none⟩ TASKS_DB).1
      = TASKS_DB :=
  (task_lifecycle_monotone "d" "get_weather" ⟨none, none, none, some "Paris", none⟩
    TASKS_DB).2.2 (by decide) (by decide)

end MCP
